import Mathlib

/-!
Verification development for the geo-photo repository's spatial coverage-gap
optimizer: a shallow embedding of the haversine geodesy, the coverage
objective functions, the influence-grid accumulation loops, and the radius
sweep driver, together with theorems settling the specification's claims.

Modelling conventions:
- Python floats are modelled as exact reals (trigonometric code) or exact
  rationals (grid index arithmetic); machine rounding is outside the model.
- A Python expression whose evaluation is undefined in exact arithmetic
  (division by zero, min of an empty sequence) is modelled as Option.none.
- numpy.arctan2 is modelled by the piecewise definition of the two-argument
  arctangent; Python int() truncation toward zero is modelled by pyInt.
- The scipy optimizers (minimize, differential_evolution) are external
  collaborators and are modelled as an abstract function parameter returning
  Option (success with a point, or failure).
-/

/-- Degrees to radians, as numpy.radians: x * pi / 180. -/
noncomputable def radians (x : ℝ) : ℝ := x * (Real.pi / 180)

/-- Two-argument arctangent, the model of numpy.arctan2 (y, x). -/
noncomputable def atan2 (y x : ℝ) : ℝ :=
  if 0 < x then Real.arctan (y / x)
  else if x < 0 ∧ 0 ≤ y then Real.arctan (y / x) + Real.pi
  else if x < 0 then Real.arctan (y / x) - Real.pi
  else if x = 0 ∧ 0 < y then Real.pi / 2
  else if x = 0 ∧ y < 0 then -(Real.pi / 2)
  else 0

/-- The intermediate value a of the haversine formula in optimal_point.py:
a = sin(dlat/2)^2 + cos(radians lat1) * cos(radians lat2) * sin(dlon/2)^2. -/
noncomputable def hav_a (coord1 coord2 : ℝ × ℝ) : ℝ :=
  Real.sin (radians (coord2.1 - coord1.1) / 2) ^ 2 +
    Real.cos (radians coord1.1) * Real.cos (radians coord2.1) *
      Real.sin (radians (coord2.2 - coord1.2) / 2) ^ 2

/-- Haversine great-circle distance of optimal_point.py (R = 6371 km,
c = 2 * arctan2(sqrt a, sqrt (1 - a)), distance = R * c). -/
noncomputable def haversine (coord1 coord2 : ℝ × ℝ) : ℝ :=
  6371 * (2 * atan2 (Real.sqrt (hav_a coord1 coord2)) (Real.sqrt (1 - hav_a coord1 coord2)))

/-- Exact model of the float reciprocal 1.0/x: undefined (none) at x = 0. -/
noncomputable def safeInv (x : ℝ) : Option ℝ :=
  if x = 0 then none else some (1 / x)

/-- The list comprehension [1.0/dist for dist in distances]: none as soon as
one division has a zero denominator. -/
noncomputable def invEach : List ℝ → Option (List ℝ)
  | [] => some []
  | d :: ds =>
    match safeInv d, invEach ds with
    | some w, some ws => some (w :: ws)
    | _, _ => none

/-- objective_function of optimal_point.py: 0 outside the bounding circle,
otherwise -min(distances); min of an empty sequence is undefined (none). -/
noncomputable def objective_function_op (x : ℝ × ℝ) (points : List (ℝ × ℝ))
    (center : ℝ × ℝ) (radius : ℝ) : Option ℝ :=
  let distances := points.map (fun p => haversine x p)
  if haversine x center > radius then some 0
  else
    match distances with
    | [] => none
    | d :: ds => some (-(ds.foldl min d))

/-- objective_function of optimal_point_pure_radius_dx.py: the fixed penalty
1000000000 outside the bounding circle, otherwise the sum of reciprocal
distances to the points and to the circle boundary. -/
noncomputable def objective_function_dx (x : ℝ × ℝ) (points : List (ℝ × ℝ))
    (center : ℝ × ℝ) (radius : ℝ) : Option ℝ :=
  let distances := points.map (fun p => haversine x p)
  let distance_to_center := haversine x center
  if distance_to_center > radius then some 1000000000
  else
    let distance_to_boundary := |radius - distance_to_center|
    (invEach (distances ++ [distance_to_boundary])).map List.sum

/-- Grids are total maps from (row, col) to a cell value; the accumulation
loops only ever write inside the rectangle of the grid's shape (claim C9). -/
abbrev GridQ : Type := Int → Int → ℚ

/-- Real-valued grid for the linear-falloff variant (find_coldest_spot_4.py). -/
abbrev GridR : Type := Int → Int → ℝ

/-- The all-zero grid of numpy.zeros (find_coldest_spot.py create_grid). -/
def zeroGridQ : GridQ := fun _ _ => 0

/-- The all-zero grid of numpy.zeros (find_coldest_spot_4.py create_grid). -/
noncomputable def zeroGridR : GridR := fun _ _ => 0

/-- The in-place update grid[r, c] += v. -/
def updateCell {β : Type} [Add β] (g : Int → Int → β) (r c : ℤ) (v : β) :
    Int → Int → β :=
  fun r' c' => if r' = r ∧ c' = c then g r' c' + v else g r' c'

/-- Python range(lo, hi) over integers. -/
def loopRange (lo hi : ℤ) : List ℤ :=
  (List.range (hi - lo).toNat).map (fun k : ℕ => lo + (k : ℤ))

/-- Python int() truncation toward zero on an exact rational. -/
def pyInt (q : ℚ) : ℤ := if 0 ≤ q then ⌊q⌋ else -⌊-q⌋

/-- Cell index of a coordinate: int((x - x_min) / unit_size). -/
def rowIndex (x_min unit_size x : ℚ) : ℤ := pyInt ((x - x_min) / unit_size)

/-- Per-cell contribution of find_coldest_spot.py: 1 / 2 ** int(distance)
with distance = sqrt(i^2 + j^2); int truncation makes the exponent
Nat.sqrt (i^2 + j^2). -/
def contribV1 (i j : ℤ) : ℚ := 1 / 2 ^ Nat.sqrt ((i ^ 2 + j ^ 2).toNat)

/-- The clipped double loop of apply_points_to_grid (find_coldest_spot.py)
for one input point whose cell is (row, col): for i in
range(max(-row, -max_distance), min(height - row, max_distance + 1)) and
likewise for j, add contribV1 when sqrt(i^2 + j^2) <= max_distance
(equivalently i^2 + j^2 <= max_distance^2). -/
def applyOnePointV1 (height width max_distance row col : ℤ) (g : GridQ) : GridQ :=
  (loopRange (max (-row) (-max_distance)) (min (height - row) (max_distance + 1))).foldl
    (fun g1 i =>
      (loopRange (max (-col) (-max_distance)) (min (width - col) (max_distance + 1))).foldl
        (fun g2 j =>
          if i ^ 2 + j ^ 2 ≤ max_distance ^ 2 then
            updateCell g2 (row + i) (col + j) (contribV1 i j)
          else g2)
        g1)
    g

/-- apply_points_to_grid of find_coldest_spot.py: accumulate every point of
the zipped latitude/longitude lists into the grid. -/
def apply_points_to_grid (g : GridQ) (height width : ℤ) (latitudes longitudes : List ℚ)
    (lat_min lon_min unit_size : ℚ) (max_distance : ℤ) : GridQ :=
  (latitudes.zip longitudes).foldl
    (fun gacc p =>
      applyOnePointV1 height width max_distance
        (rowIndex lat_min unit_size p.1) (rowIndex lon_min unit_size p.2) gacc)
    g

/-- Normalized distance of find_coldest_spot_4.py:
sqrt(i^2 + j^2) * unit_size / infl_latlong, where infl_latlong stands for
max(influence_latlong), the external geodesic conversion of the influence
radius to degrees (an external collaborator, passed as a parameter). -/
noncomputable def distV4 (i j : ℤ) (unit_size infl_latlong : ℚ) : ℝ :=
  Real.sqrt (((i ^ 2 + j ^ 2 : ℤ) : ℝ)) * (unit_size : ℝ) / (infl_latlong : ℝ)

/-- Per-cell contribution of find_coldest_spot_4.py:
decay = 1 - distance, added as decay if decay > 0 else 0. -/
noncomputable def contribV4 (i j : ℤ) (unit_size infl_latlong : ℚ) : ℝ :=
  if 1 - distV4 i j unit_size infl_latlong > 0 then 1 - distV4 i j unit_size infl_latlong
  else 0

/-- The clipped double loop of apply_points_to_grid (find_coldest_spot_4.py)
for one input point: same index windows as the V1 variant, contribution
added when the normalized distance is <= 1. -/
noncomputable def applyOnePointV4 (height width max_distance_cells row col : ℤ)
    (unit_size infl_latlong : ℚ) (g : GridR) : GridR :=
  (loopRange (max (-row) (-max_distance_cells))
      (min (height - row) (max_distance_cells + 1))).foldl
    (fun g1 i =>
      (loopRange (max (-col) (-max_distance_cells))
          (min (width - col) (max_distance_cells + 1))).foldl
        (fun g2 j =>
          if distV4 i j unit_size infl_latlong ≤ 1 then
            updateCell g2 (row + i) (col + j) (contribV4 i j unit_size infl_latlong)
          else g2)
        g1)
    g

/-- apply_points_to_grid of find_coldest_spot_4.py. -/
noncomputable def apply_points_to_grid_4 (g : GridR) (height width : ℤ)
    (latitudes longitudes : List ℚ) (lat_min lon_min unit_size infl_latlong : ℚ)
    (max_distance_cells : ℤ) : GridR :=
  (latitudes.zip longitudes).foldl
    (fun gacc p =>
      applyOnePointV4 height width max_distance_cells
        (rowIndex lat_min unit_size p.1) (rowIndex lon_min unit_size p.2)
        unit_size infl_latlong gacc)
    g

/-- read_coordinates_from_file of optimal_point.py, over the decoded CSV rows
after the header: appends every row as a point, with no validation and no
emptiness check. -/
def read_coordinates_from_file (rows : List (ℚ × ℚ)) : List (ℚ × ℚ) :=
  rows.foldl (fun points row => points ++ [row]) []

/-- create_grid of find_coldest_spot.py: min/max over the coordinate lists
(undefined, hence none, on an empty list - Python's min raises ValueError),
then the zero grid with its origin and integer shape. -/
def create_grid (latitudes longitudes : List ℚ) (unit_size : ℚ) :
    Option (GridQ × ℚ × ℚ × ℤ × ℤ) :=
  match latitudes, longitudes with
  | [], _ => none
  | _, [] => none
  | a :: as_, b :: bs =>
    let lat_min := as_.foldl min a
    let lat_max := as_.foldl max a
    let lon_min := bs.foldl min b
    let lon_max := bs.foldl max b
    let grid_height := pyInt ((lat_max - lat_min) / unit_size) + 1
    let grid_width := pyInt ((lon_max - lon_min) / unit_size) + 1
    some (zeroGridQ, lat_min, lon_min, grid_height, grid_width)

/-- Banker's rounding (round half to even) of an exact rational to an
integer, the model of Python's round. -/
def roundHalfEven (q : ℚ) : ℤ :=
  if q - ⌊q⌋ < 1 / 2 then ⌊q⌋
  else if (1 : ℚ) / 2 < q - ⌊q⌋ then ⌊q⌋ + 1
  else if ⌊q⌋ % 2 = 0 then ⌊q⌋ else ⌊q⌋ + 1

/-- Python round(q, 2): round to two decimal places. -/
def round2 (q : ℚ) : ℚ := (roundHalfEven (q * 100) : ℚ) / 100

/-- numpy.arange(start, stop, step) on exact rationals:
start + k * step for 0 <= k < ceil((stop - start) / step). -/
def arange (start stop step : ℚ) : List ℚ :=
  (List.range (⌈(stop - start) / step⌉).toNat).map (fun k => start + (k : ℚ) * step)

/-- Python dict assignment d[k] = v on an insertion-ordered association
list: replace in place if the key exists, else append. -/
def dictInsert {α : Type} (m : List (ℚ × α)) (k : ℚ) (v : α) : List (ℚ × α) :=
  if m.any (fun e => e.1 = k) then m.map (fun e => if e.1 = k then (k, v) else e)
  else m ++ [(k, v)]

/-- The keys of an insertion-ordered association list. -/
def dictKeys {α : Type} (m : List (ℚ × α)) : List ℚ := m.map Prod.fst

/-- precompute_optimal_points of optimal_point.py: sweep the radius over
numpy.arange(lo, hi + step, step), round each radius to two decimals, run
the external optimizer (scipy minimize, a parameter here), store the result
under the rounded key on success, and skip the iteration (with a printed
diagnostic, outside the model) on failure. -/
def precompute_optimal_points (optimizer : ℚ → Option (ℚ × ℚ))
    (radius_lo radius_hi step : ℚ) : List (ℚ × (ℚ × ℚ)) :=
  (arange radius_lo (radius_hi + step) step).foldl
    (fun optimal_points radius =>
      match optimizer (round2 radius) with
      | some x => dictInsert optimal_points (round2 radius) x
      | none => optimal_points)
    []

/-- Inverse-exponential decay kernel as the specification words it:
1 / 2 ^ distance with a real exponent. Declared only to be compared with
the source's contribV1, which truncates the exponent. -/
noncomputable def specInvExpKernel (d : ℝ) : ℝ := 1 / (2 : ℝ) ^ d

lemma hav_a_comm (p q : ℝ × ℝ) : hav_a p q = hav_a q p := by
  unfold hav_a radians
  rw [show (p.1 - q.1) * (Real.pi / 180) / 2 = -((q.1 - p.1) * (Real.pi / 180) / 2) by ring,
    show (p.2 - q.2) * (Real.pi / 180) / 2 = -((q.2 - p.2) * (Real.pi / 180) / 2) by ring,
    Real.sin_neg, Real.sin_neg]
  ring

lemma hav_a_self (p : ℝ × ℝ) : hav_a p p = 0 := by
  unfold hav_a radians
  simp

lemma atan2_zero_one : atan2 0 1 = 0 := by
  unfold atan2
  rw [if_pos (by norm_num : (0:ℝ) < 1)]
  norm_num [Real.arctan_zero]

lemma haversine_self_eq (p : ℝ × ℝ) : haversine p p = 0 := by
  unfold haversine
  rw [hav_a_self, Real.sqrt_zero, sub_zero, Real.sqrt_one, atan2_zero_one]
  ring

lemma haversine_comm (p q : ℝ × ℝ) : haversine p q = haversine q p := by
  unfold haversine
  rw [hav_a_comm]

lemma atan2_nonneg_of_nonneg (y x : ℝ) (hy : 0 ≤ y) (hx : 0 ≤ x) : 0 ≤ atan2 y x := by
  unfold atan2
  split_ifs with h1 h2 h3 h4 h5
  · have hq : (0:ℝ) ≤ y / x := div_nonneg hy h1.le
    have := Real.arctan_strictMono.monotone hq
    rwa [Real.arctan_zero] at this
  · exact absurd h2.1 (not_lt.mpr hx)
  · exact absurd h3 (not_lt.mpr hx)
  · linarith [Real.pi_pos]
  · exact absurd h5.2 (not_lt.mpr hy)
  · exact le_refl 0

lemma haversine_nonneg (p q : ℝ × ℝ) : 0 ≤ haversine p q := by
  unfold haversine
  have h := atan2_nonneg_of_nonneg (Real.sqrt (hav_a p q)) (Real.sqrt (1 - hav_a p q))
    (Real.sqrt_nonneg _) (Real.sqrt_nonneg _)
  linarith

lemma hav_a_00_900 : hav_a ((0:ℝ), (0:ℝ)) ((90:ℝ), (0:ℝ)) = 1 / 2 := by
  unfold hav_a radians
  norm_num
  rw [show (90:ℝ) * (Real.pi / 180) / 2 = Real.pi / 4 by ring, Real.sin_pi_div_four]
  rw [div_pow, Real.sq_sqrt (by norm_num : (0:ℝ) ≤ 2)]
  norm_num

lemma haversine_00_900 : haversine ((0:ℝ), (0:ℝ)) ((90:ℝ), (0:ℝ)) = 6371 * (Real.pi / 2) := by
  unfold haversine
  rw [hav_a_00_900, show (1:ℝ) - 1 / 2 = 1 / 2 by norm_num]
  have hpos : (0:ℝ) < Real.sqrt (1 / 2) := Real.sqrt_pos.mpr (by norm_num)
  have ha : atan2 (Real.sqrt (1 / 2)) (Real.sqrt (1 / 2)) = Real.pi / 4 := by
    unfold atan2
    rw [if_pos hpos, div_self (ne_of_gt hpos), Real.arctan_one]
  rw [ha]
  ring

lemma haversine_900_00 : haversine ((90:ℝ), (0:ℝ)) ((0:ℝ), (0:ℝ)) = 6371 * (Real.pi / 2) := by
  rw [haversine_comm]
  exact haversine_00_900

lemma haversine_00_900_pos : 0 < haversine ((0:ℝ), (0:ℝ)) ((90:ℝ), (0:ℝ)) := by
  rw [haversine_00_900]
  positivity

lemma haversine_900_00_gt_one : (1:ℝ) < haversine ((90:ℝ), (0:ℝ)) ((0:ℝ), (0:ℝ)) := by
  rw [haversine_900_00]
  nlinarith [Real.pi_gt_three]

lemma invEach_eq_none (l : List ℝ) (h : 0 ∈ l) : invEach l = none := by
  induction l with
  | nil => simp at h
  | cons d ds ih =>
    rcases List.mem_cons.mp h with h0 | h0
    · have hd : safeInv d = none := by
        unfold safeInv
        rw [if_pos h0.symm]
      simp only [invEach]
      rw [hd]
    · have hds := ih h0
      simp only [invEach]
      rw [hds]
      cases safeInv d <;> rfl

lemma invEach_isSome (l : List ℝ) (h : ∀ y ∈ l, y ≠ 0) : ∃ ws, invEach l = some ws := by
  induction l with
  | nil => exact ⟨[], rfl⟩
  | cons d ds ih =>
    obtain ⟨ws, hws⟩ := ih (fun y hy => h y (List.mem_cons_of_mem _ hy))
    have hd : safeInv d = some (1 / d) := by
      unfold safeInv
      rw [if_neg (h d (List.mem_cons_self _ _))]
    refine ⟨1 / d :: ws, ?_⟩
    simp only [invEach]
    rw [hd, hws]

lemma foldl_min_nonneg (d : ℝ) (ds : List ℝ) (hd : 0 ≤ d) (h : ∀ y ∈ ds, 0 ≤ y) :
    0 ≤ ds.foldl min d := by
  induction ds generalizing d with
  | nil => exact hd
  | cons a l ih =>
    simp only [List.foldl_cons]
    exact ih (min d a) (le_min hd (h a (List.mem_cons_self a l)))
      (fun y hy => h y (List.mem_cons_of_mem _ hy))

lemma foldl_min_pos (d : ℝ) (ds : List ℝ) (hd : 0 < d) (h : ∀ y ∈ ds, 0 < y) :
    0 < ds.foldl min d := by
  induction ds generalizing d with
  | nil => exact hd
  | cons a l ih =>
    simp only [List.foldl_cons]
    exact ih (min d a) (lt_min hd (h a (List.mem_cons_self a l)))
      (fun y hy => h y (List.mem_cons_of_mem _ hy))

/-- Claim C6: the haversine great-circle distance is symmetric, and the
distance from any point to itself is 0. -/
theorem claim_C6 : ∀ a b : ℝ × ℝ, haversine a b = haversine b a ∧ haversine a a = 0 :=
  fun a b => ⟨haversine_comm a b, haversine_self_eq a⟩

lemma mem_loopRange {lo hi x : ℤ} (h : x ∈ loopRange lo hi) : lo ≤ x ∧ x < hi := by
  unfold loopRange at h
  obtain ⟨k, hk, rfl⟩ := List.mem_map.mp h
  replace hk : k < (hi - lo).toNat := List.mem_range.mp hk
  omega

lemma updateCell_of_ne {β : Type} [Add β] (g : Int → Int → β) (rr cc r c : ℤ) (v : β)
    (h : ¬(r = rr ∧ c = cc)) : updateCell g rr cc v r c = g r c := by
  unfold updateCell
  rw [if_neg h]

lemma updateCell_le {β : Type} [OrderedAddCommMonoid β] (g : Int → Int → β)
    (rr cc r c : ℤ) (v : β) (hv : 0 ≤ v) : g r c ≤ updateCell g rr cc v r c := by
  unfold updateCell
  split_ifs with h
  · exact le_add_of_nonneg_right hv
  · exact le_refl _

lemma foldl_grid_preserve {α β : Type} (f : (Int → Int → β) → α → Int → Int → β)
    (l : List α) (g : Int → Int → β) (r c : ℤ)
    (h : ∀ g' a, a ∈ l → f g' a r c = g' r c) : (l.foldl f g) r c = g r c := by
  induction l generalizing g with
  | nil => rfl
  | cons a l ih =>
    simp only [List.foldl_cons]
    rw [ih (f g a) (fun g' b hb => h g' b (List.mem_cons_of_mem _ hb))]
    exact h g a (List.mem_cons_self _ _)

lemma foldl_grid_le {α β : Type} [Preorder β] (f : (Int → Int → β) → α → Int → Int → β)
    (l : List α) (g : Int → Int → β) (r c : ℤ)
    (h : ∀ g' a, a ∈ l → g' r c ≤ f g' a r c) : g r c ≤ (l.foldl f g) r c := by
  induction l generalizing g with
  | nil => exact le_refl _
  | cons a l ih =>
    simp only [List.foldl_cons]
    exact le_trans (h g a (List.mem_cons_self _ _))
      (ih (f g a) (fun g' b hb => h g' b (List.mem_cons_of_mem _ hb)))

lemma applyOnePointV1_untouched (height width maxd row col r c : ℤ) (g : GridQ)
    (h : maxd ^ 2 < (r - row) ^ 2 + (c - col) ^ 2) :
    applyOnePointV1 height width maxd row col g r c = g r c := by
  unfold applyOnePointV1
  refine foldl_grid_preserve _ _ g r c ?_
  intro g1 i _
  refine foldl_grid_preserve _ _ g1 r c ?_
  intro g2 j _
  split_ifs with hguard
  · refine updateCell_of_ne _ _ _ _ _ _ ?_
    rintro ⟨e1, e2⟩
    have hi : i = r - row := by omega
    have hj : j = c - col := by omega
    rw [hi, hj] at hguard
    linarith
  · rfl

lemma distV4_not_le_one (i j : ℤ) (unit_size infl : ℚ) (hu : 0 < unit_size)
    (hm : 0 < infl) (h : infl ^ 2 < ((i ^ 2 + j ^ 2 : ℤ) : ℚ) * unit_size ^ 2) :
    ¬ distV4 i j unit_size infl ≤ 1 := by
  unfold distV4
  rw [not_le]
  have hu' : (0:ℝ) < (unit_size : ℝ) := by exact_mod_cast hu
  have hm' : (0:ℝ) < (infl : ℝ) := by exact_mod_cast hm
  have hh : ((infl : ℝ)) ^ 2 < ((i ^ 2 + j ^ 2 : ℤ) : ℝ) * (unit_size : ℝ) ^ 2 := by
    exact_mod_cast h
  have h1 : ((infl : ℝ) / (unit_size : ℝ)) ^ 2 < ((i ^ 2 + j ^ 2 : ℤ) : ℝ) := by
    rw [div_pow, div_lt_iff₀ (by positivity)]
    linarith
  have h2 : (infl : ℝ) / (unit_size : ℝ) < Real.sqrt ((i ^ 2 + j ^ 2 : ℤ) : ℝ) :=
    (Real.lt_sqrt (by positivity)).mpr h1
  rw [div_lt_iff₀ hu'] at h2
  rw [lt_div_iff₀ hm']
  linarith

lemma applyOnePointV4_untouched (height width maxd row col r c : ℤ)
    (unit_size infl : ℚ) (g : GridR) (hu : 0 < unit_size) (hm : 0 < infl)
    (h : infl ^ 2 < (((r - row) ^ 2 + (c - col) ^ 2 : ℤ) : ℚ) * unit_size ^ 2) :
    applyOnePointV4 height width maxd row col unit_size infl g r c = g r c := by
  unfold applyOnePointV4
  refine foldl_grid_preserve _ _ g r c ?_
  intro g1 i _
  refine foldl_grid_preserve _ _ g1 r c ?_
  intro g2 j _
  split_ifs with hguard
  · refine updateCell_of_ne _ _ _ _ _ _ ?_
    rintro ⟨e1, e2⟩
    have hi : i = r - row := by omega
    have hj : j = c - col := by omega
    rw [hi, hj] at hguard
    exact distV4_not_le_one _ _ _ _ hu hm h hguard
  · rfl

lemma contribV1_nonneg (i j : ℤ) : 0 ≤ contribV1 i j := by
  unfold contribV1
  positivity

lemma contribV4_nonneg (i j : ℤ) (u m : ℚ) : 0 ≤ contribV4 i j u m := by
  unfold contribV4
  split_ifs with h
  · linarith
  · exact le_refl 0

lemma applyOnePointV1_le (height width maxd row col r c : ℤ) (g : GridQ) :
    g r c ≤ applyOnePointV1 height width maxd row col g r c := by
  unfold applyOnePointV1
  refine foldl_grid_le _ _ g r c ?_
  intro g1 i _
  refine foldl_grid_le _ _ g1 r c ?_
  intro g2 j _
  split_ifs with hg
  · exact updateCell_le _ _ _ _ _ _ (contribV1_nonneg i j)
  · exact le_refl _

lemma applyOnePointV4_le (height width maxd row col r c : ℤ) (u m : ℚ) (g : GridR) :
    g r c ≤ applyOnePointV4 height width maxd row col u m g r c := by
  unfold applyOnePointV4
  refine foldl_grid_le _ _ g r c ?_
  intro g1 i _
  refine foldl_grid_le _ _ g1 r c ?_
  intro g2 j _
  split_ifs with hg
  · exact updateCell_le _ _ _ _ _ _ (contribV4_nonneg i j u m)
  · exact le_refl _

/-- Claim C9: the clipped accumulation loops of both apply_points_to_grid
variants never index out of bounds: every index pair (row + i, col + j)
they touch lies inside the grid rectangle, for every grid shape, every
point cell (row, col) - even one outside the grid extent - and every
window radius. -/
theorem claim_C9 : ∀ height width max_distance row col i j : ℤ,
    i ∈ loopRange (max (-row) (-max_distance)) (min (height - row) (max_distance + 1)) →
    j ∈ loopRange (max (-col) (-max_distance)) (min (width - col) (max_distance + 1)) →
    0 ≤ row + i ∧ row + i < height ∧ 0 ≤ col + j ∧ col + j < width := by
  intro height width maxd row col i j hi hj
  have h1 := mem_loopRange hi
  have h2 := mem_loopRange hj
  omega

/-- Witness for claim C9 at a concrete grid shape, point cell and window. -/
theorem claim_C9_witness :
    ((1:ℤ) ∈ loopRange (max (-(1:ℤ)) (-(2:ℤ))) (min ((5:ℤ) - 1) ((2:ℤ) + 1)))
    ∧ ((0:ℤ) ∈ loopRange (max (-(1:ℤ)) (-(2:ℤ))) (min ((4:ℤ) - 1) ((2:ℤ) + 1)))
    ∧ (0 ≤ (1:ℤ) + 1 ∧ (1:ℤ) + 1 < 5 ∧ 0 ≤ (1:ℤ) + 0 ∧ (1:ℤ) + 0 < 4) :=
  ⟨by decide, by decide, claim_C9 5 4 2 1 1 1 0 (by decide) (by decide)⟩

/-- Claim C4: in both accumulation variants, a grid cell with no input point
within the maximum influence radius (in cell-index space: every point's
cell is at squared cell distance beyond the window radius, respectively
beyond the normalized influence radius) has influence exactly 0 after
accumulating all points into the zero grid. -/
theorem claim_C4 : ∀ (height width : ℤ) (lats lons : List ℚ)
    (lat_min lon_min unit_size : ℚ) (max_distance : ℤ) (infl_latlong : ℚ) (r c : ℤ),
    ((∀ p ∈ lats.zip lons,
        max_distance ^ 2 < (r - rowIndex lat_min unit_size p.1) ^ 2 +
          (c - rowIndex lon_min unit_size p.2) ^ 2) →
      apply_points_to_grid zeroGridQ height width lats lons lat_min lon_min
        unit_size max_distance r c = 0)
    ∧ (0 < unit_size → 0 < infl_latlong →
      (∀ p ∈ lats.zip lons,
        infl_latlong ^ 2 < (((r - rowIndex lat_min unit_size p.1) ^ 2 +
          (c - rowIndex lon_min unit_size p.2) ^ 2 : ℤ) : ℚ) * unit_size ^ 2) →
      apply_points_to_grid_4 zeroGridR height width lats lons lat_min lon_min
        unit_size infl_latlong max_distance r c = 0) := by
  intro height width lats lons lat_min lon_min unit_size max_distance infl r c
  constructor
  · intro h
    unfold apply_points_to_grid
    rw [foldl_grid_preserve _ _ zeroGridQ r c
      (fun g' p hp => applyOnePointV1_untouched height width max_distance _ _ r c g' (h p hp))]
    rfl
  · intro hu hm h
    unfold apply_points_to_grid_4
    rw [foldl_grid_preserve _ _ zeroGridR r c
      (fun g' p hp => applyOnePointV4_untouched height width max_distance _ _ r c
        unit_size infl g' hu hm (h p hp))]
    rfl

/-- Witness for claim C4: a single point at the origin cell, queried at a
cell far outside its influence window. -/
theorem claim_C4_witness :
    apply_points_to_grid zeroGridQ 10 10 [0] [0] 0 0 1 2 5 5 = 0
    ∧ apply_points_to_grid_4 zeroGridR 10 10 [0] [0] 0 0 1 1 2 5 5 = 0 := by
  have h1 : ∀ p ∈ ([0] : List ℚ).zip ([0] : List ℚ),
      (2:ℤ) ^ 2 < (5 - rowIndex 0 1 p.1) ^ 2 + (5 - rowIndex 0 1 p.2) ^ 2 := by
    intro p hp
    simp only [List.zip_cons_cons, List.zip_nil_right, List.mem_singleton] at hp
    subst hp
    norm_num [rowIndex, pyInt]
  have h2 : ∀ p ∈ ([0] : List ℚ).zip ([0] : List ℚ),
      (1:ℚ) ^ 2 < (((5 - rowIndex 0 1 p.1) ^ 2 + (5 - rowIndex 0 1 p.2) ^ 2 : ℤ) : ℚ) * 1 ^ 2 := by
    intro p hp
    simp only [List.zip_cons_cons, List.zip_nil_right, List.mem_singleton] at hp
    subst hp
    norm_num [rowIndex, pyInt]
  exact ⟨(claim_C4 10 10 [0] [0] 0 0 1 2 1 5 5).1 h1,
    (claim_C4 10 10 [0] [0] 0 0 1 2 1 5 5).2 (by norm_num) (by norm_num) h2⟩

/-- Claim C5: influence accumulation is monotone in both variants: appending
one more point to the (equal-length) coordinate lists never decreases any
cell's accumulated value, because every per-point contribution is
non-negative. -/
theorem claim_C5 : ∀ (g : GridQ) (gR : GridR) (height width : ℤ) (lats lons : List ℚ)
    (lat lon lat_min lon_min unit_size infl_latlong : ℚ) (max_distance r c : ℤ),
    lats.length = lons.length →
    apply_points_to_grid g height width lats lons lat_min lon_min
        unit_size max_distance r c ≤
      apply_points_to_grid g height width (lats ++ [lat]) (lons ++ [lon]) lat_min lon_min
        unit_size max_distance r c
    ∧ apply_points_to_grid_4 gR height width lats lons lat_min lon_min
        unit_size infl_latlong max_distance r c ≤
      apply_points_to_grid_4 gR height width (lats ++ [lat]) (lons ++ [lon]) lat_min lon_min
        unit_size infl_latlong max_distance r c := by
  intro g gR height width lats lons lat lon lat_min lon_min unit_size infl maxd r c hlen
  have hz : (lats ++ [lat]).zip (lons ++ [lon]) = lats.zip lons ++ [(lat, lon)] :=
    List.zip_append hlen
  constructor
  · unfold apply_points_to_grid
    rw [hz, List.foldl_append, List.foldl_cons, List.foldl_nil]
    exact applyOnePointV1_le _ _ _ _ _ _ _ _
  · unfold apply_points_to_grid_4
    rw [hz, List.foldl_append, List.foldl_cons, List.foldl_nil]
    exact applyOnePointV4_le _ _ _ _ _ _ _ _ _ _

/-- Witness for claim C5 at a concrete grid, point list and appended point. -/
theorem claim_C5_witness :
    apply_points_to_grid zeroGridQ 3 3 [0] [0] 0 0 1 2 0 0 ≤
      apply_points_to_grid zeroGridQ 3 3 ([0] ++ [1]) ([0] ++ [1]) 0 0 1 2 0 0
    ∧ apply_points_to_grid_4 zeroGridR 3 3 [0] [0] 0 0 1 1 2 0 0 ≤
      apply_points_to_grid_4 zeroGridR 3 3 ([0] ++ [1]) ([0] ++ [1]) 0 0 1 1 2 0 0 :=
  claim_C5 zeroGridQ zeroGridR 3 3 [0] [0] 1 1 0 0 1 1 2 0 0 rfl

/-- Claim C10: in the minimum-distance scoring mode of optimal_point.py the
objective value is always at most 0; it is exactly 0 for every candidate
farther than the radius from the center, and strictly negative for every
in-circle candidate at positive distance from all input points (so under
minimization an out-of-circle candidate never scores strictly better than
such a feasible candidate). -/
theorem claim_C10 : ∀ (x center : ℝ × ℝ) (radius : ℝ) (points : List (ℝ × ℝ)),
    (∀ v, objective_function_op x points center radius = some v → v ≤ 0)
    ∧ (haversine x center > radius → objective_function_op x points center radius = some 0)
    ∧ (¬ haversine x center > radius → points ≠ [] →
      (∀ p ∈ points, 0 < haversine x p) →
      ∃ v, objective_function_op x points center radius = some v ∧ v < 0) := by
  intro x center radius points
  refine ⟨?_, ?_, ?_⟩
  · intro v hv
    simp only [objective_function_op] at hv
    by_cases hout : haversine x center > radius
    · rw [if_pos hout] at hv
      have := Option.some.inj hv
      linarith
    · rw [if_neg hout] at hv
      cases points with
      | nil => simp at hv
      | cons p ps =>
        simp only [List.map_cons] at hv
        have hv' := Option.some.inj hv
        have h0 : 0 ≤ (List.map (fun q => haversine x q) ps).foldl min (haversine x p) := by
          refine foldl_min_nonneg _ _ (haversine_nonneg x p) ?_
          intro y hy
          obtain ⟨q, _, rfl⟩ := List.mem_map.mp hy
          exact haversine_nonneg x q
        linarith [hv']
  · intro h
    simp only [objective_function_op]
    rw [if_pos h]
  · intro hin hne hpos
    simp only [objective_function_op]
    rw [if_neg hin]
    cases points with
    | nil => exact absurd rfl hne
    | cons p ps =>
      simp only [List.map_cons]
      refine ⟨_, rfl, ?_⟩
      rw [neg_lt_zero]
      refine foldl_min_pos _ _ (hpos p (List.mem_cons_self p ps)) ?_
      intro y hy
      obtain ⟨q, hq, rfl⟩ := List.mem_map.mp hy
      exact hpos q (List.mem_cons_of_mem _ hq)

/-- Witness for claim C10: center candidate inside a unit-radius circle
around itself, one input point a quarter of the globe away. -/
theorem claim_C10_witness :
    (¬ haversine ((0:ℝ), (0:ℝ)) ((0:ℝ), (0:ℝ)) > 1)
    ∧ ([((90:ℝ), (0:ℝ))] ≠ ([] : List (ℝ × ℝ)))
    ∧ (∃ v, objective_function_op ((0:ℝ), (0:ℝ)) [((90:ℝ), (0:ℝ))] ((0:ℝ), (0:ℝ)) 1 = some v
        ∧ v < 0) := by
  have h1 : ¬ haversine ((0:ℝ), (0:ℝ)) ((0:ℝ), (0:ℝ)) > 1 := by
    rw [haversine_self_eq]
    norm_num
  have h2 : [((90:ℝ), (0:ℝ))] ≠ ([] : List (ℝ × ℝ)) := by simp
  have h3 : ∀ p ∈ [((90:ℝ), (0:ℝ))], 0 < haversine ((0:ℝ), (0:ℝ)) p := by
    intro p hp
    rw [List.mem_singleton] at hp
    subst hp
    exact haversine_00_900_pos
  exact ⟨h1, h2, (claim_C10 ((0:ℝ), (0:ℝ)) ((0:ℝ), (0:ℝ)) 1 [((90:ℝ), (0:ℝ))]).2.2 h1 h2 h3⟩

/-- Claim C1, amended: the repulsion-potential objective of
optimal_point_pure_radius_dx.py returns the fixed 1e9 sentinel for every
candidate outside the bounding circle and a defined (finite) value for every
candidate strictly inside at positive distance from all points; the
minimum-distance objective of optimal_point.py instead clamps out-of-circle
candidates to 0 - a fixed finite value, not the large sentinel and not
-infinity/NaN - and is defined strictly inside whenever the point set is
nonempty. -/
theorem claim_C1 : ∀ (x center : ℝ × ℝ) (radius : ℝ) (points : List (ℝ × ℝ)),
    (haversine x center > radius →
      objective_function_dx x points center radius = some 1000000000)
    ∧ (haversine x center > radius →
      objective_function_op x points center radius = some 0)
    ∧ (haversine x center < radius → (∀ p ∈ points, 0 < haversine x p) →
      (objective_function_dx x points center radius).isSome = true)
    ∧ (¬ haversine x center > radius → points ≠ [] →
      (objective_function_op x points center radius).isSome = true) := by
  intro x center radius points
  refine ⟨?_, ?_, ?_, ?_⟩
  · intro h
    simp only [objective_function_dx]
    rw [if_pos h]
  · intro h
    simp only [objective_function_op]
    rw [if_pos h]
  · intro hlt hpos
    simp only [objective_function_dx]
    rw [if_neg (lt_asymm hlt)]
    have hne0 : ∀ y ∈ points.map (fun p => haversine x p) ++ [|radius - haversine x center|],
        y ≠ 0 := by
      intro y hy
      rcases List.mem_append.mp hy with hy | hy
      · obtain ⟨p, hp, rfl⟩ := List.mem_map.mp hy
        exact ne_of_gt (hpos p hp)
      · rw [List.mem_singleton] at hy
        subst hy
        exact abs_ne_zero.mpr (sub_ne_zero_of_ne (ne_of_gt hlt))
    obtain ⟨ws, hws⟩ := invEach_isSome _ hne0
    rw [hws]
    rfl
  · intro hnot hne
    simp only [objective_function_op]
    rw [if_neg hnot]
    cases points with
    | nil => exact absurd rfl hne
    | cons p ps =>
      simp only [List.map_cons]
      rfl

/-- Counterexample for claim C1 as stated: at a candidate outside the
bounding circle, the objective of optimal_point.py returns 0 - a value that
is not the large fixed penalty sentinel. -/
theorem claim_C1_counterexample :
    haversine ((90:ℝ), (0:ℝ)) ((0:ℝ), (0:ℝ)) > 1
    ∧ objective_function_op ((90:ℝ), (0:ℝ)) [] ((0:ℝ), (0:ℝ)) 1 = some 0
    ∧ (0:ℝ) ≠ 1000000000 := by
  have hgt : haversine ((90:ℝ), (0:ℝ)) ((0:ℝ), (0:ℝ)) > 1 := haversine_900_00_gt_one
  refine ⟨hgt, ?_, by norm_num⟩
  simp only [objective_function_op]
  rw [if_pos hgt]

/-- Witness for claim C1 at concrete inside and outside candidates. -/
theorem claim_C1_witness :
    (haversine ((90:ℝ), (0:ℝ)) ((0:ℝ), (0:ℝ)) > 1
      ∧ objective_function_dx ((90:ℝ), (0:ℝ)) [] ((0:ℝ), (0:ℝ)) 1 = some 1000000000)
    ∧ (haversine ((0:ℝ), (0:ℝ)) ((0:ℝ), (0:ℝ)) < 1
      ∧ (objective_function_dx ((0:ℝ), (0:ℝ)) [((90:ℝ), (0:ℝ))] ((0:ℝ), (0:ℝ)) 1).isSome = true
      ∧ (objective_function_op ((0:ℝ), (0:ℝ)) [((90:ℝ), (0:ℝ))] ((0:ℝ), (0:ℝ)) 1).isSome = true) := by
  have hgt := haversine_900_00_gt_one
  have hlt : haversine ((0:ℝ), (0:ℝ)) ((0:ℝ), (0:ℝ)) < 1 := by
    rw [haversine_self_eq]
    norm_num
  have hpos : ∀ p ∈ [((90:ℝ), (0:ℝ))], 0 < haversine ((0:ℝ), (0:ℝ)) p := by
    intro p hp
    rw [List.mem_singleton] at hp
    subst hp
    exact haversine_00_900_pos
  exact ⟨⟨hgt, (claim_C1 ((90:ℝ), (0:ℝ)) ((0:ℝ), (0:ℝ)) 1 []).1 hgt⟩,
    ⟨hlt, (claim_C1 ((0:ℝ), (0:ℝ)) ((0:ℝ), (0:ℝ)) 1 [((90:ℝ), (0:ℝ))]).2.2.1 hlt hpos,
      (claim_C1 ((0:ℝ), (0:ℝ)) ((0:ℝ), (0:ℝ)) 1 [((90:ℝ), (0:ℝ))]).2.2.2
        (not_lt.mpr hlt.le) (by simp)⟩⟩

/-- Claim C2, amended: when the candidate coincides with an input point and
lies within the bounding circle, the repulsion objective reaches the
division 1.0/0.0 - the evaluation is undefined in the exact model (none;
a ZeroDivisionError under pure-Python floats, +inf under numpy scalar
semantics) - and in particular it does not return the penalty sentinel. -/
theorem claim_C2 : ∀ (x center : ℝ × ℝ) (radius : ℝ) (points : List (ℝ × ℝ)),
    x ∈ points → ¬ haversine x center > radius →
    objective_function_dx x points center radius = none := by
  intro x center radius points hx hin
  simp only [objective_function_dx]
  rw [if_neg hin]
  have h0 : (0:ℝ) ∈ points.map (fun p => haversine x p) ++ [|radius - haversine x center|] :=
    List.mem_append.mpr (Or.inl (List.mem_map.mpr ⟨x, hx, haversine_self_eq x⟩))
  rw [invEach_eq_none _ h0]
  rfl

/-- Counterexample for claim C2 as stated: a candidate coinciding with an
in-circle input point makes the repulsion objective hit a zero denominator
(undefined evaluation), not the 1e9 sentinel the claim promises. -/
theorem claim_C2_counterexample :
    objective_function_dx ((0:ℝ), (0:ℝ)) [((0:ℝ), (0:ℝ))] ((0:ℝ), (0:ℝ)) 1 = none
    ∧ objective_function_dx ((0:ℝ), (0:ℝ)) [((0:ℝ), (0:ℝ))] ((0:ℝ), (0:ℝ)) 1
        ≠ some 1000000000 := by
  have hin : ¬ haversine ((0:ℝ), (0:ℝ)) ((0:ℝ), (0:ℝ)) > 1 := by
    rw [haversine_self_eq]
    norm_num
  have h1 : objective_function_dx ((0:ℝ), (0:ℝ)) [((0:ℝ), (0:ℝ))] ((0:ℝ), (0:ℝ)) 1 = none := by
    simp only [objective_function_dx]
    rw [if_neg hin]
    have h0 : (0:ℝ) ∈ [((0:ℝ), (0:ℝ))].map
        (fun p => haversine ((0:ℝ), (0:ℝ)) p) ++
          [|1 - haversine ((0:ℝ), (0:ℝ)) ((0:ℝ), (0:ℝ))|] :=
      List.mem_append.mpr (Or.inl (List.mem_map.mpr
        ⟨((0:ℝ), (0:ℝ)), List.mem_singleton.mpr rfl, haversine_self_eq _⟩))
    rw [invEach_eq_none _ h0]
    rfl
  exact ⟨h1, by rw [h1]; simp⟩

/-- Witness for claim C2 at a concrete coincident in-circle candidate. -/
theorem claim_C2_witness :
    (((0:ℝ), (0:ℝ)) ∈ [((0:ℝ), (0:ℝ))])
    ∧ (¬ haversine ((0:ℝ), (0:ℝ)) ((0:ℝ), (0:ℝ)) > 2)
    ∧ objective_function_dx ((0:ℝ), (0:ℝ)) [((0:ℝ), (0:ℝ))] ((0:ℝ), (0:ℝ)) 2 = none := by
  have hx : ((0:ℝ), (0:ℝ)) ∈ [((0:ℝ), (0:ℝ))] := List.mem_singleton.mpr rfl
  have hin : ¬ haversine ((0:ℝ), (0:ℝ)) ((0:ℝ), (0:ℝ)) > 2 := by
    rw [haversine_self_eq]
    norm_num
  exact ⟨hx, hin, claim_C2 ((0:ℝ), (0:ℝ)) ((0:ℝ), (0:ℝ)) 2 [((0:ℝ), (0:ℝ))] hx hin⟩

/-- Claim C8, amended: there is no fail-fast validation of an empty point
set: the reader returns the empty list without error, and the run only
fails later, inside grid construction (min of an empty sequence in
create_grid) or inside the first objective evaluation of the continuous
variant (min of an empty distance list) - so no result is produced, but
the failure is not raised before grid construction or optimization. -/
theorem claim_C8 : ∀ (unit_size : ℚ) (x center : ℝ × ℝ) (radius : ℝ),
    read_coordinates_from_file [] = []
    ∧ create_grid [] [] unit_size = none
    ∧ (¬ haversine x center > radius → objective_function_op x [] center radius = none) := by
  intro u x center radius
  refine ⟨rfl, rfl, ?_⟩
  intro h
  simp only [objective_function_op]
  rw [if_neg h]
  rfl

/-- Counterexample for claim C8 as stated: the empty input is read without
any input error, and the failure only surfaces inside create_grid and
inside an objective evaluation - optimization is attempted. -/
theorem claim_C8_counterexample :
    read_coordinates_from_file [] = []
    ∧ create_grid [] [] (1 / 100) = none
    ∧ objective_function_op ((0:ℝ), (0:ℝ)) [] ((0:ℝ), (0:ℝ)) 1 = none := by
  refine ⟨rfl, rfl, ?_⟩
  have h : ¬ haversine ((0:ℝ), (0:ℝ)) ((0:ℝ), (0:ℝ)) > 1 := by
    rw [haversine_self_eq]
    norm_num
  simp only [objective_function_op]
  rw [if_neg h]
  rfl

/-- Witness for claim C8 at concrete arguments. -/
theorem claim_C8_witness :
    (¬ haversine ((0:ℝ), (0:ℝ)) ((0:ℝ), (0:ℝ)) > 2)
    ∧ read_coordinates_from_file [] = []
    ∧ create_grid [] [] 1 = none
    ∧ objective_function_op ((0:ℝ), (0:ℝ)) [] ((0:ℝ), (0:ℝ)) 2 = none := by
  have h : ¬ haversine ((0:ℝ), (0:ℝ)) ((0:ℝ), (0:ℝ)) > 2 := by
    rw [haversine_self_eq]
    norm_num
  exact ⟨h, (claim_C8 1 ((0:ℝ), (0:ℝ)) ((0:ℝ), (0:ℝ)) 2).1,
    (claim_C8 1 ((0:ℝ), (0:ℝ)) ((0:ℝ), (0:ℝ)) 2).2.1,
    (claim_C8 1 ((0:ℝ), (0:ℝ)) ((0:ℝ), (0:ℝ)) 2).2.2 h⟩

/-- Counterexample for claim C3 as stated: at cell offset (1, 1) the
inverse-exponential contribution of find_coldest_spot.py is 1/2 (the
exponent is int-truncated), while the kernel value 1/2^d at the Euclidean
distance d = sqrt 2 is strictly smaller. -/
theorem claim_C3_counterexample :
    ((contribV1 1 1 : ℚ) : ℝ) ≠ specInvExpKernel (Real.sqrt ((1:ℝ) ^ 2 + (1:ℝ) ^ 2)) := by
  have h2 : Nat.sqrt 2 = 1 := (Nat.eq_sqrt'.mpr (by norm_num)).symm
  have hc : contribV1 1 1 = 1 / 2 := by
    have ht : (((1:ℤ) ^ 2 + 1 ^ 2).toNat) = 2 := by decide
    unfold contribV1
    rw [ht, h2]
    norm_num
  have harg : ((1:ℝ) ^ 2 + (1:ℝ) ^ 2) = 2 := by norm_num
  have hsq : (1:ℝ) < Real.sqrt 2 := by
    nlinarith [Real.sq_sqrt (show (0:ℝ) ≤ 2 by norm_num), Real.sqrt_nonneg 2]
  have hlt : (2:ℝ) ^ (1:ℝ) < (2:ℝ) ^ Real.sqrt 2 := by
    rw [Real.rpow_lt_rpow_left_iff (by norm_num : (1:ℝ) < 2)]
    exact hsq
  rw [Real.rpow_one] at hlt
  intro heq
  rw [hc, harg] at heq
  unfold specInvExpKernel at heq
  push_cast at heq
  have hp : (0:ℝ) < (2:ℝ) ^ Real.sqrt 2 := Real.rpow_pos_of_pos (by norm_num) _
  rw [div_eq_div_iff (by norm_num) hp.ne'] at heq
  nlinarith [hlt, heq]

/-- Claim C3, amended: the contribution of find_coldest_spot.py equals
1/2^floor(d) - the exponent is the Euclidean cell distance truncated to an
integer, not d itself - while the linear-falloff contribution of
find_coldest_spot_4.py equals max(0, 1 - d/radius) exactly, for every
touched cell within the influence radius. -/
theorem claim_C3 : ∀ (i j : ℤ) (unit_size infl_latlong : ℚ),
    ((contribV1 i j : ℚ) : ℝ) = 1 / 2 ^ (⌊Real.sqrt ((i:ℝ) ^ 2 + (j:ℝ) ^ 2)⌋.toNat)
    ∧ (distV4 i j unit_size infl_latlong ≤ 1 →
      contribV4 i j unit_size infl_latlong = max 0 (1 - distV4 i j unit_size infl_latlong)) := by
  intro i j u m
  constructor
  · have h0 : (0:ℤ) ≤ i ^ 2 + j ^ 2 := by positivity
    have h1 : (((i ^ 2 + j ^ 2).toNat : ℕ) : ℝ) = ((i ^ 2 + j ^ 2 : ℤ) : ℝ) := by
      exact_mod_cast congrArg (fun z : ℤ => (z : ℝ)) (Int.toNat_of_nonneg h0)
    have hcast : ((i:ℝ) ^ 2 + (j:ℝ) ^ 2) = (((i ^ 2 + j ^ 2).toNat : ℕ) : ℝ) := by
      rw [h1]
      push_cast
      ring
    rw [hcast, Real.floor_real_sqrt_eq_nat_sqrt, Int.toNat_natCast]
    unfold contribV1
    push_cast
    ring
  · intro hle
    unfold contribV4
    split_ifs with h
    · exact (max_eq_right h.le).symm
    · exact (max_eq_left (by linarith [not_lt.mp h])).symm

/-- Witness for claim C3 at concrete cell offsets and parameters. -/
theorem claim_C3_witness :
    distV4 1 0 1 2 ≤ 1
    ∧ ((contribV1 1 0 : ℚ) : ℝ) = 1 / 2 ^ (⌊Real.sqrt (((1:ℤ):ℝ) ^ 2 + ((0:ℤ):ℝ) ^ 2)⌋.toNat)
    ∧ contribV4 1 0 1 2 = max 0 (1 - distV4 1 0 1 2) := by
  have hd : distV4 1 0 1 2 ≤ 1 := by
    unfold distV4
    have h1 : (((1:ℤ) ^ 2 + (0:ℤ) ^ 2 : ℤ) : ℝ) = 1 := by norm_num
    rw [h1, Real.sqrt_one]
    push_cast
    norm_num
  exact ⟨hd, (claim_C3 1 0 1 2).1, (claim_C3 1 0 1 2).2 hd⟩

lemma dictKeys_dictInsert {α : Type} (m : List (ℚ × α)) (k k' : ℚ) (v : α) :
    k' ∈ dictKeys (dictInsert m k v) ↔ k' ∈ dictKeys m ∨ k' = k := by
  unfold dictInsert dictKeys
  by_cases h : m.any (fun e => e.1 = k)
  · rw [if_pos h, List.map_map]
    rw [List.any_eq_true] at h
    obtain ⟨e0, he0, he0k⟩ := h
    rw [decide_eq_true_eq] at he0k
    constructor
    · intro hmem
      obtain ⟨e, he, hek'⟩ := List.mem_map.mp hmem
      simp only [Function.comp_apply] at hek'
      by_cases hek : e.1 = k
      · rw [if_pos hek] at hek'
        exact Or.inr hek'.symm
      · rw [if_neg hek] at hek'
        exact Or.inl (List.mem_map.mpr ⟨e, he, hek'⟩)
    · intro hmem
      rcases hmem with hmem | hk
      · obtain ⟨e, he, hek'⟩ := List.mem_map.mp hmem
        refine List.mem_map.mpr ⟨e, he, ?_⟩
        simp only [Function.comp_apply]
        by_cases hek : e.1 = k
        · rw [if_pos hek, ← hek]
          exact hek'
        · rw [if_neg hek]
          exact hek'
      · refine List.mem_map.mpr ⟨e0, he0, ?_⟩
        simp only [Function.comp_apply]
        rw [if_pos he0k]
        exact hk.symm
  · rw [if_neg h, List.map_append]
    simp [List.mem_append]

lemma precompute_keys_aux (optimizer : ℚ → Option (ℚ × ℚ)) (l : List ℚ)
    (m : List (ℚ × (ℚ × ℚ))) (k : ℚ) :
    (k ∈ dictKeys (l.foldl
      (fun optimal_points radius =>
        match optimizer (round2 radius) with
        | some x => dictInsert optimal_points (round2 radius) x
        | none => optimal_points) m)) ↔
      (k ∈ dictKeys m ∨ ∃ r ∈ l, round2 r = k ∧ (optimizer k).isSome = true) := by
  induction l generalizing m with
  | nil => simp
  | cons r l ih =>
    simp only [List.foldl_cons]
    rw [ih]
    cases hopt : optimizer (round2 r) with
    | none =>
      simp only [hopt]
      constructor
      · rintro (hm | ⟨r', hr', hrk, hs⟩)
        · exact Or.inl hm
        · exact Or.inr ⟨r', List.mem_cons_of_mem _ hr', hrk, hs⟩
      · rintro (hm | ⟨r', hr', hrk, hs⟩)
        · exact Or.inl hm
        · rcases List.mem_cons.mp hr' with rfl | hr'
          · rw [hrk] at hopt
            rw [hopt] at hs
            simp at hs
          · exact Or.inr ⟨r', hr', hrk, hs⟩
    | some x =>
      simp only [hopt]
      rw [dictKeys_dictInsert]
      constructor
      · rintro ((hm | hk) | ⟨r', hr', hrk, hs⟩)
        · exact Or.inl hm
        · refine Or.inr ⟨r, List.mem_cons_self _ _, hk.symm, ?_⟩
          rw [hk, hopt]
          rfl
        · exact Or.inr ⟨r', List.mem_cons_of_mem _ hr', hrk, hs⟩
      · rintro (hm | ⟨r', hr', hrk, hs⟩)
        · exact Or.inl (Or.inl hm)
        · rcases List.mem_cons.mp hr' with rfl | hr'
          · exact Or.inl (Or.inr hrk.symm)
          · exact Or.inr ⟨r', hr', hrk, hs⟩

/-- Claim C7: the radius sweep of precompute_optimal_points stores an entry
exactly for those swept parameter values whose optimization succeeded: a
key is present iff it is the two-decimal rounding of some swept arange
value and the optimizer succeeds on it; a failed iteration contributes
nothing while every other iteration still runs, so a failure never aborts
the sweep (the equivalence holds for an arbitrary optimizer, in particular
one failing on any subset of the radii). -/
theorem claim_C7 : ∀ (optimizer : ℚ → Option (ℚ × ℚ)) (radius_lo radius_hi step k : ℚ),
    k ∈ dictKeys (precompute_optimal_points optimizer radius_lo radius_hi step) ↔
      ((∃ r ∈ arange radius_lo (radius_hi + step) step, round2 r = k)
        ∧ (optimizer k).isSome = true) := by
  intro optimizer lo hi step k
  unfold precompute_optimal_points
  rw [precompute_keys_aux]
  constructor
  · rintro (hm | ⟨r, hr, hrk, hs⟩)
    · simp [dictKeys] at hm
    · exact ⟨⟨r, hr, hrk⟩, hs⟩
  · rintro ⟨⟨r, hr, hrk⟩, hs⟩
    exact Or.inr ⟨r, hr, hrk, hs⟩
